import Mathlib

/-!
Shallow embedding of the HR resume-screening and interview-scheduling
pipeline (Python sources under src/) and proofs about its specification
claims.

Modelling conventions:
* Python int becomes Int (scores) or Nat (counts, day numbers, minutes).
* Python float (the skill-match percentage) becomes Rat.
* Calendar dates become Nat day numbers counted from an epoch chosen to be
  a Monday, so the Python weekday() of a day number d is d % 7
  (Monday = 0, ..., Sunday = 6). Both date formats used by the source
  ("%Y-%m-%d" for holidays, "%A, %B %d, %Y" for bookings) are injective
  in the calendar date, so equality of formatted date strings is equality
  of day numbers.
* Raised Python exceptions become Except / Option values; calls to the
  external LLM capabilities become explicit outcome parameters.
-/

namespace HRScreening

/-- The three candidate classifications admitted by the Literal type of
ScreeningScore.classification in src/src/models.py. -/
inductive Classification where
  | strongFit
  | moderateFit
  | notSuitable
deriving DecidableEq, Repr

/-- The screening evaluation record, mirroring the pydantic model
ScreeningScore of src/src/models.py (lines 45-54). -/
structure ScreeningScore where
  score : Int
  classification : Classification
  reasoning : String
  strengths : List String
  gaps : List String
  skillMatchPercentage : Rat
deriving DecidableEq, Repr

/-- Construction of a ScreeningScore through pydantic validation
(src/src/models.py, lines 45-54): score carries Field ge=0 le=100 and
skill_match_percentage carries Field ge=0 le=100, so construction fails
outside those ranges; classification is constrained only to be one of the
three literals, which the Classification type already guarantees. The
model declares no validator relating classification to score. -/
def mkScreeningScore (score : Int) (c : Classification) (reasoning : String)
    (strengths gaps : List String) (skillMatchPercentage : Rat) :
    Option ScreeningScore :=
  if 0 ≤ score ∧ score ≤ 100 ∧ 0 ≤ skillMatchPercentage ∧ skillMatchPercentage ≤ 100 then
    some ⟨score, c, reasoning, strengths, gaps, skillMatchPercentage⟩
  else
    none

/-- Modelled from the spec (section 3): the fixed-threshold mapping from a
score to its classification, with 75 and above StrongFit, 50 to 74
ModerateFit, below 50 NotSuitable. Stated here only to compare the spec
requirement against the constructor above; it does not embed source code. -/
def specClassification (s : Int) : Classification :=
  if 75 ≤ s then Classification.strongFit
  else if 50 ≤ s then Classification.moderateFit
  else Classification.notSuitable

/-- The acceptance threshold QUALIFIED_CANDIDATE_THRESHOLD of
src/src/config.py (line 17). -/
def QUALIFIED_CANDIDATE_THRESHOLD : Int := 70

/-- The two outgoing edges of the conditional routing after resume
analysis in HRScreeningWorkflow._build_workflow (src/src/workflow.py). -/
inductive RoutePath where
  | coordinateAccept
  | coordinateReject
deriving DecidableEq, Repr

/-- DecisionSupervisorAgent.route_after_screening
(src/src/agents/supervisor.py, lines 29-65): with no screening score the
candidate is routed to the reject branch; otherwise the branch is chosen by
comparing the score against the threshold. -/
def routeAfterScreening (screeningScore : Option ScreeningScore) : RoutePath :=
  match screeningScore with
  | none => RoutePath.coordinateReject
  | some s =>
    if QUALIFIED_CANDIDATE_THRESHOLD ≤ s.score then RoutePath.coordinateAccept
    else RoutePath.coordinateReject

/-- DecisionSupervisorAgent.should_require_human_review
(src/src/agents/supervisor.py, lines 67-100): true with no screening score;
true for borderline scores 65..75; true for a score of at least 80 with a
truthy gap list of length above 2; false otherwise. -/
def shouldRequireHumanReview (screeningScore : Option ScreeningScore) : Bool :=
  match screeningScore with
  | none => true
  | some s =>
    if 65 ≤ s.score ∧ s.score ≤ 75 then true
    else if 80 ≤ s.score ∧ s.gaps ≠ [] ∧ 2 < s.gaps.length then true
    else false

/-- C1 counterexample: a ScreeningScore whose classification disagrees with
the fixed thresholds is constructible; pydantic validation accepts score 90
together with classification NotSuitable, so construction does not enforce
the claimed consistency invariant. -/
theorem C1_counterexample :
    ∃ r : ScreeningScore,
      mkScreeningScore 90 Classification.notSuitable "capability disagrees" [] [] 50
          = some r ∧
      r.score = 90 ∧ r.classification ≠ specClassification r.score := by
  refine ⟨⟨90, Classification.notSuitable, "capability disagrees", [], [], 50⟩, ?_, rfl, ?_⟩
  · unfold mkScreeningScore
    norm_num
  · decide

/-- C1 (amended): construction of a ScreeningScore validates only the range
bounds, succeeding exactly when the score and the skill-match percentage lie
in [0, 100]; the classification argument is unconstrained, so any
classification is accepted alongside any in-range score, including pairs
that disagree with the fixed thresholds. -/
theorem C1_construction_bounds (s : Int) (c : Classification) (re : String)
    (st g : List String) (m : Rat) :
    mkScreeningScore s c re st g m = some ⟨s, c, re, st, g, m⟩ ↔
      (0 ≤ s ∧ s ≤ 100 ∧ 0 ≤ m ∧ m ≤ 100) := by
  unfold mkScreeningScore
  split_ifs with h
  · simp [h]
  · simp [h]

/-- C5: for every screening score with value in [0, 100], routing selects
the accept path exactly when the score is at least 70 and the reject path
otherwise, and the routing decision depends only on the score field. -/
theorem C5_route_threshold (r : ScreeningScore) (h0 : 0 ≤ r.score)
    (h1 : r.score ≤ 100) :
    (routeAfterScreening (some r) = RoutePath.coordinateAccept ↔ 70 ≤ r.score) ∧
    (routeAfterScreening (some r) = RoutePath.coordinateReject ↔ r.score < 70) ∧
    (∀ r2 : ScreeningScore, r2.score = r.score →
      routeAfterScreening (some r2) = routeAfterScreening (some r)) := by
  have key : ∀ r2 : ScreeningScore, routeAfterScreening (some r2) =
      if 70 ≤ r2.score then RoutePath.coordinateAccept else RoutePath.coordinateReject :=
    fun r2 => rfl
  refine ⟨?_, ?_, ?_⟩
  · rw [key]
    by_cases hc : 70 ≤ r.score <;> simp [hc]
  · rw [key]
    by_cases hc : 70 ≤ r.score <;> simp [hc] <;> omega
  · intro r2 h
    rw [key, key, h]

/-- Concrete screening score used to witness C5. -/
def c5Score : ScreeningScore :=
  ⟨85, Classification.strongFit, "strong match", ["Python"], [], 90⟩

/-- Witness for C5 at the concrete score 85. -/
theorem C5_route_threshold_witness :
    (routeAfterScreening (some c5Score) = RoutePath.coordinateAccept ↔ 70 ≤ c5Score.score) ∧
    (routeAfterScreening (some c5Score) = RoutePath.coordinateReject ↔ c5Score.score < 70) ∧
    (∀ r2 : ScreeningScore, r2.score = c5Score.score →
      routeAfterScreening (some r2) = routeAfterScreening (some c5Score)) :=
  C5_route_threshold c5Score (by norm_num [c5Score]) (by norm_num [c5Score])

/-- C7: with a screening result present, the human-review flag is raised
exactly for scores in the inclusive band [65, 75] or for scores of at least
80 with more than 2 gaps; in particular it is true at score 70, false at
score 100 with no gaps, and true at score 85 with 3 gaps. -/
theorem C7_human_review_band :
    (∀ r : ScreeningScore, shouldRequireHumanReview (some r) = true ↔
      ((65 ≤ r.score ∧ r.score ≤ 75) ∨ (80 ≤ r.score ∧ 2 < r.gaps.length))) ∧
    (∀ r : ScreeningScore, r.score = 70 →
      shouldRequireHumanReview (some r) = true) ∧
    (∀ r : ScreeningScore, r.score = 100 → r.gaps.length = 0 →
      shouldRequireHumanReview (some r) = false) ∧
    (∀ r : ScreeningScore, r.score = 85 → r.gaps.length = 3 →
      shouldRequireHumanReview (some r) = true) := by
  have hmain : ∀ r : ScreeningScore, shouldRequireHumanReview (some r) = true ↔
      ((65 ≤ r.score ∧ r.score ≤ 75) ∨ (80 ≤ r.score ∧ 2 < r.gaps.length)) := by
    intro r
    have hred : shouldRequireHumanReview (some r) =
        (if 65 ≤ r.score ∧ r.score ≤ 75 then true
         else if 80 ≤ r.score ∧ r.gaps ≠ [] ∧ 2 < r.gaps.length then true
         else false) := rfl
    rw [hred]
    split_ifs with h1 h2
    · simp only [true_iff]
      exact Or.inl h1
    · simp only [true_iff]
      exact Or.inr ⟨h2.1, h2.2.2⟩
    · simp only [Bool.false_eq_true, false_iff]
      rintro (ha | hb)
      · exact h1 ha
      · exact h2 ⟨hb.1, List.length_pos.mp (by omega), hb.2⟩
  refine ⟨hmain, ?_, ?_, ?_⟩
  · intro r h
    rw [hmain r]
    left
    omega
  · intro r h hg
    cases hb : shouldRequireHumanReview (some r) with
    | false => rfl
    | true =>
      rcases (hmain r).mp hb with hband | hgaps
      · omega
      · omega
  · intro r h hg
    rw [hmain r]
    right
    omega

/-- Concrete screening score used to witness C7. -/
def c7Score : ScreeningScore :=
  ⟨100, Classification.strongFit, "perfect", ["Go"], [], 100⟩

/-- Witness for C7: no human review for a perfect score with no gaps. -/
theorem C7_human_review_band_witness :
    shouldRequireHumanReview (some c7Score) = false :=
  C7_human_review_band.2.2.1 c7Score rfl rfl

/-- A JSON value, at the granularity json.load distinguishes: the booking
store file parses to one of these shapes or fails to parse. -/
inductive Json where
  | null
  | boolean (b : Bool)
  | number (q : Rat)
  | string (s : String)
  | array (elems : List Json)
  | object (fields : List (String × Json))

/-- The observable states of data/booked_slots.json as load_booked_slots
distinguishes them: the file may be absent, opening or reading it may
raise, json.load may raise JSONDecodeError, or parsing may succeed with
some JSON value. -/
inductive StoreFile where
  | absent
  | unreadable
  | malformed
  | parsed (j : Json)

/-- load_booked_slots (src/src/utils.py, lines 184-206): a missing file
yields the empty list; any exception while opening, reading or parsing is
caught, logged and yields the empty list; a parsed value that is not a list
yields the empty list; a parsed list is returned as is. -/
def loadBookedSlots : StoreFile → List Json
  | StoreFile.absent => []
  | StoreFile.unreadable => []
  | StoreFile.malformed => []
  | StoreFile.parsed (Json.array l) => l
  | StoreFile.parsed _ => []

/-- C9: loading the booking store returns the empty list when no store file
has been persisted, and also returns the empty list without raising when
the store is unreadable or corrupt, including when its content parses but
is not a list. -/
theorem C9_load_graceful :
    loadBookedSlots StoreFile.absent = [] ∧
    loadBookedSlots StoreFile.unreadable = [] ∧
    loadBookedSlots StoreFile.malformed = [] ∧
    (∀ j : Json, (∀ l : List Json, j ≠ Json.array l) →
      loadBookedSlots (StoreFile.parsed j) = []) := by
  refine ⟨rfl, rfl, rfl, ?_⟩
  intro j hj
  cases j with
  | array l => exact absurd rfl (hj l)
  | null => rfl
  | boolean b => rfl
  | number q => rfl
  | string s => rfl
  | object fs => rfl

/-- Witness for C9: a parsed store whose content is a JSON object, not a
list, loads as the empty list. -/
theorem C9_load_graceful_witness :
    loadBookedSlots (StoreFile.parsed (Json.object [])) = [] :=
  C9_load_graceful.2.2.2 (Json.object []) (fun _ h => Json.noConfusion h)

/-- One persisted booking entry, as written by save_booking: candidate
name, date (a day number, see the module comment), time string, timezone
label and booked_at timestamp. -/
structure Booking where
  candidateName : String
  date : Nat
  time : String
  timezone : String
  bookedAt : String
deriving DecidableEq, Repr

/-- is_slot_available (src/src/utils.py, lines 258-275): scans the loaded
bookings and returns false on the first booking whose (date, time) pair
matches the query, true when no booking matches; duration and timezone do
not participate. -/
def isSlotAvailable : List Booking → Nat → String → Bool
  | [], _, _ => true
  | b :: rest, date, time =>
    if b.date = date ∧ b.time = time then false
    else isSlotAvailable rest date time

/-- save_booking (src/src/utils.py, lines 209-255): loads the existing
bookings, appends one new entry whose booked_at timestamp comes from the
clock (passed here as a parameter), and persists the whole list. -/
def saveBooking (store : List Booking) (candidateName : String) (date : Nat)
    (time : String) (timezone : String) (bookedAt : String) : List Booking :=
  store ++ [⟨candidateName, date, time, timezone, bookedAt⟩]

/-- The whitespace characters stripped by the Python str.strip method and
matched by the regex class backslash-s, restricted to ASCII. -/
def isStripSpace (c : Char) : Bool :=
  c == ' ' || c == '\t' || c == '\n' || c == '\r' || c == '\x0b' || c == '\x0c'

/-- Strip of leading and trailing whitespace, mirroring str.strip. -/
def stripList (cs : List Char) : List Char :=
  ((cs.dropWhile isStripSpace).reverse.dropWhile isStripSpace).reverse

/-- Value of a list of decimal digit characters, most significant first. -/
def digitsToNat (cs : List Char) : Nat :=
  cs.foldl (fun a c => a * 10 + (c.toNat - '0'.toNat)) 0

/-- datetime.strptime(time_str.strip(), "%I:%M %p") as used by
is_within_business_hours, returning minutes since midnight on success and
none where Python raises ValueError. The strptime format compiles to the
anchored regex hour (1[0-2]|0[1-9]|[1-9]), a colon, minute ([0-5] digit or
a single digit), one or more whitespace characters, and a case-insensitive
AM or PM, with the whole string consumed; %I hours run 1..12 and %p maps
12 AM to hour 0 and keeps 12 PM at hour 12. -/
def parseTime12 (s : String) : Option Nat :=
  let cs := stripList s.toList
  let hd := cs.takeWhile Char.isDigit
  let r1 := cs.dropWhile Char.isDigit
  let h := digitsToNat hd
  if hd.length = 0 then none
  else if 2 < hd.length then none
  else if hd.length = 1 ∧ h = 0 then none
  else if hd.length = 2 ∧ (h = 0 ∨ 12 < h) then none
  else
    match r1 with
    | ':' :: r2 =>
      let md := r2.takeWhile Char.isDigit
      let r3 := r2.dropWhile Char.isDigit
      let m := digitsToNat md
      if md.length = 0 then none
      else if 2 < md.length then none
      else if md.length = 2 ∧ 59 < m then none
      else
        let ws := r3.takeWhile isStripSpace
        let r4 := r3.dropWhile isStripSpace
        if ws.length = 0 then none
        else
          match r4 with
          | [c1, c2] =>
            if (c1 == 'A' || c1 == 'a' || c1 == 'P' || c1 == 'p') &&
                (c2 == 'M' || c2 == 'm') then
              let pm := c1 == 'P' || c1 == 'p'
              let hour24 := if pm then (if h = 12 then 12 else h + 12)
                else (if h = 12 then 0 else h)
              some (hour24 * 60 + m)
            else none
          | _ => none
    | _ => none

/-- is_within_business_hours (src/src/utils.py, lines 300-338): parse the
time string with strptime, convert to minutes since midnight and test the
two closed intervals 10:00..12:00 and 14:00..17:00; any parse failure is
caught and yields false. -/
def isWithinBusinessHours (timeStr : String) : Bool :=
  match parseTime12 timeStr with
  | none => false
  | some totalMinutes =>
    let morningStart := 10 * 60
    let morningEnd := 12 * 60
    let afternoonStart := 14 * 60
    let afternoonEnd := 17 * 60
    decide ((morningStart ≤ totalMinutes ∧ totalMinutes ≤ morningEnd) ∨
      (afternoonStart ≤ totalMinutes ∧ totalMinutes ≤ afternoonEnd))

/-- Python weekday() under the day-number model of the module comment:
Monday = 0 through Sunday = 6. -/
def weekday (d : Nat) : Nat := d % 7

/-- is_holiday (src/src/utils.py, lines 278-297): membership of the
formatted date in COMPANY_HOLIDAYS; the format is injective, so this is
membership of the day number in the holiday day-number list. -/
def isHoliday (holidays : List Nat) (d : Nat) : Bool :=
  decide (d ∈ holidays)

/-- Closed form of the inner while loop of generate_interview_slots that
advances slot_date one day at a time while its weekday is 5 or 6. -/
def skipWeekend (d : Nat) : Nat :=
  if d % 7 = 5 then d + 2 else if d % 7 = 6 then d + 1 else d

/-- A proposed interview slot, mirroring the pydantic model InterviewSlot
of src/src/models.py (date as a day number, see the module comment). -/
structure InterviewSlot where
  date : Nat
  time : String
  durationMinutes : Nat
  timezone : String
deriving DecidableEq, Repr

/-- The configuration inputs of the allocator, drawn from src/src/config.py:
INTERVIEW_AVAILABILITY preferred_times and timezone, COMPANY_HOLIDAYS as
day numbers, NUM_INTERVIEW_SLOTS and DEFAULT_INTERVIEW_DURATION. -/
structure SchedulingConfig where
  preferredTimes : List String
  timezone : String
  holidays : List Nat
  numSlots : Nat
  duration : Nat
deriving Repr

/-- A primitive operation against the Booking Store, recorded in order of
execution: an is_slot_available query or a save_booking commit, each
identified by the (date, time) pair it concerns. -/
inductive StoreOp where
  | checkAvail (date : Nat) (time : String)
  | saveSlot (date : Nat) (time : String)
deriving DecidableEq, Repr

/-- The main while loop of InterviewCoordinatorAgent.generate_interview_slots
(src/src/agents/interview_coordinator.py, lines 279-320). The fuel argument
is the remaining attempt budget (attempt_count is incremented once per
iteration, continue branches included, and the loop stops at max_attempts).
Each iteration skips weekend days, skips one day on a holiday, re-checks
business hours for the proposed time, queries the store for availability,
and appends an available slot; after trying every valid time of a day it
advances to the next day. Returns the collected slots together with the
ordered store-operation trace of the availability queries it issued. -/
def genLoop (cfg : SchedulingConfig) (store : List Booking)
    (validTimes : List String) :
    Nat → Nat → Nat → List InterviewSlot → List InterviewSlot × List StoreOp
  | 0, _, _, acc => (acc, [])
  | fuel + 1, slotDate, timeIndex, acc =>
    if cfg.numSlots ≤ acc.length then (acc, [])
    else
      let d := skipWeekend slotDate
      if isHoliday cfg.holidays d then
        genLoop cfg store validTimes fuel (d + 1) timeIndex acc
      else
        let t := validTimes.getD (timeIndex % validTimes.length) ""
        if isWithinBusinessHours t = false then
          genLoop cfg store validTimes fuel d (timeIndex + 1) acc
        else
          let acc2 := if isSlotAvailable store d t then
              acc ++ [⟨d, t, cfg.duration, cfg.timezone⟩]
            else acc
          let ti := timeIndex + 1
          let nextDate := if ti % validTimes.length = 0 then d + 1 else d
          let rest := genLoop cfg store validTimes fuel nextDate ti acc2
          (rest.1, StoreOp.checkAvail d t :: rest.2)

/-- InterviewCoordinatorAgent.generate_interview_slots
(src/src/agents/interview_coordinator.py, lines 254-327): filter the
preferred times through the business-hours check, return no slots when the
filter leaves nothing, and otherwise run the search loop with attempt
budget NUM_INTERVIEW_SLOTS * 15 starting 2 days after now. The second
component is the store-operation trace. -/
def generateInterviewSlotsT (cfg : SchedulingConfig) (store : List Booking)
    (now : Nat) : List InterviewSlot × List StoreOp :=
  let validTimes := cfg.preferredTimes.filter isWithinBusinessHours
  if validTimes.isEmpty then ([], [])
  else genLoop cfg store validTimes (cfg.numSlots * 15) (now + 2) 0 []

/-- The slot list returned by generate_interview_slots. -/
def generateInterviewSlots (cfg : SchedulingConfig) (store : List Booking)
    (now : Nat) : List InterviewSlot :=
  (generateInterviewSlotsT cfg store now).1

/-- The ordered Booking Store operations performed by the accept path of
InterviewCoordinatorAgent.process_qualified
(src/src/agents/interview_coordinator.py, lines 354-430): the availability
queries issued while generating slots, followed, when at least one slot was
generated, by the save_booking commit of the first slot; no other store
access happens between generation and the commit. -/
def processQualifiedStoreOps (cfg : SchedulingConfig) (store : List Booking)
    (now : Nat) : List StoreOp :=
  let gen := generateInterviewSlotsT cfg store now
  match gen.1 with
  | [] => gen.2
  | s :: _ => gen.2 ++ [StoreOp.saveSlot s.date s.time]

theorem skipWeekend_ge (d : Nat) : d ≤ skipWeekend d := by
  unfold skipWeekend
  split_ifs <;> omega

theorem skipWeekend_weekday_lt (d : Nat) : skipWeekend d % 7 < 5 := by
  unfold skipWeekend
  split_ifs <;> omega

theorem getD_mod_mem (vt : List String) (i : Nat) (h : vt ≠ []) :
    vt.getD (i % vt.length) "" ∈ vt := by
  have hpos : 0 < vt.length := List.length_pos.mpr h
  have hlt : i % vt.length < vt.length := Nat.mod_lt _ hpos
  rw [List.getD_eq_getElem?_getD, List.getElem?_eq_getElem hlt]
  exact List.getElem_mem hlt

/-- The invariant satisfied by every slot the search loop adds: its time is
one of the filtered valid times and passes the business-hours check, its
(date, time) pair was available in the store, its date is not a holiday,
falls on a weekday and is at least the lower bound, and duration and
timezone come from the configuration. -/
def GoodSlot (cfg : SchedulingConfig) (store : List Booking)
    (validTimes : List String) (lo : Nat) (s : InterviewSlot) : Prop :=
  s.time ∈ validTimes ∧ isWithinBusinessHours s.time = true ∧
  isSlotAvailable store s.date s.time = true ∧
  isHoliday cfg.holidays s.date = false ∧
  s.date % 7 < 5 ∧ lo ≤ s.date ∧
  s.durationMinutes = cfg.duration ∧ s.timezone = cfg.timezone

theorem GoodSlot.mono {cfg : SchedulingConfig} {store : List Booking}
    {validTimes : List String} {lo lo2 : Nat} {s : InterviewSlot}
    (h : lo ≤ lo2) (hg : GoodSlot cfg store validTimes lo2 s) :
    GoodSlot cfg store validTimes lo s := by
  obtain ⟨h1, h2, h3, h4, h5, h6, h7, h8⟩ := hg
  exact ⟨h1, h2, h3, h4, h5, by omega, h7, h8⟩

theorem genLoop_mem (cfg : SchedulingConfig) (store : List Booking)
    (validTimes : List String) :
    ∀ (fuel slotDate timeIndex : Nat) (acc : List InterviewSlot)
      (s : InterviewSlot),
      s ∈ (genLoop cfg store validTimes fuel slotDate timeIndex acc).1 →
      s ∈ acc ∨ (GoodSlot cfg store validTimes slotDate s ∧
        StoreOp.checkAvail s.date s.time ∈
          (genLoop cfg store validTimes fuel slotDate timeIndex acc).2) := by
  intro fuel
  induction fuel with
  | zero =>
    intro slotDate timeIndex acc s hs
    exact Or.inl hs
  | succ fuel ih =>
    intro slotDate timeIndex acc s hs
    simp only [genLoop] at hs ⊢
    split_ifs at hs ⊢ with h1 h2 h3 h4 h5 h6
    · exact Or.inl hs
    · rcases ih _ _ _ _ hs with hin | ⟨hg, hmem⟩
      · exact Or.inl hin
      · refine Or.inr ⟨hg.mono ?_, hmem⟩
        have := skipWeekend_ge slotDate
        omega
    · rcases ih _ _ _ _ hs with hin | ⟨hg, hmem⟩
      · exact Or.inl hin
      · refine Or.inr ⟨hg.mono (skipWeekend_ge slotDate), hmem⟩
    · rcases ih _ _ _ _ hs with hin | ⟨hg, hmem⟩
      · rcases List.mem_append.mp hin with hin2 | hin2
        · exact Or.inl hin2
        · have hseq : s = ⟨skipWeekend slotDate,
              validTimes.getD (timeIndex % validTimes.length) "",
              cfg.duration, cfg.timezone⟩ := List.mem_singleton.mp hin2
          subst hseq
          have ht : isWithinBusinessHours
              (validTimes.getD (timeIndex % validTimes.length) "") = true := by
            revert h3
            cases isWithinBusinessHours
              (validTimes.getD (timeIndex % validTimes.length) "") <;> simp
          have hvt : validTimes.getD (timeIndex % validTimes.length) "" ∈ validTimes := by
            refine getD_mod_mem validTimes timeIndex ?_
            intro hnil
            rw [hnil] at ht
            simp [List.getD] at ht
            cases ht
          have h2f : isHoliday cfg.holidays (skipWeekend slotDate) = false := by
            revert h2
            cases isHoliday cfg.holidays (skipWeekend slotDate) <;> simp
          refine Or.inr ⟨⟨hvt, ht, h5, h2f, skipWeekend_weekday_lt slotDate,
            skipWeekend_ge slotDate, rfl, rfl⟩, List.mem_cons_self _ _⟩
      · refine Or.inr ⟨hg.mono ?_, List.mem_cons_of_mem _ hmem⟩
        have := skipWeekend_ge slotDate
        omega
    · rcases ih _ _ _ _ hs with hin | ⟨hg, hmem⟩
      · exact Or.inl hin
      · refine Or.inr ⟨hg.mono ?_, List.mem_cons_of_mem _ hmem⟩
        have := skipWeekend_ge slotDate
        omega
    · rcases ih _ _ _ _ hs with hin | ⟨hg, hmem⟩
      · rcases List.mem_append.mp hin with hin2 | hin2
        · exact Or.inl hin2
        · have hseq : s = ⟨skipWeekend slotDate,
              validTimes.getD (timeIndex % validTimes.length) "",
              cfg.duration, cfg.timezone⟩ := List.mem_singleton.mp hin2
          subst hseq
          have ht : isWithinBusinessHours
              (validTimes.getD (timeIndex % validTimes.length) "") = true := by
            revert h3
            cases isWithinBusinessHours
              (validTimes.getD (timeIndex % validTimes.length) "") <;> simp
          have hvt : validTimes.getD (timeIndex % validTimes.length) "" ∈ validTimes := by
            refine getD_mod_mem validTimes timeIndex ?_
            intro hnil
            rw [hnil] at ht
            simp [List.getD] at ht
            cases ht
          have h2f : isHoliday cfg.holidays (skipWeekend slotDate) = false := by
            revert h2
            cases isHoliday cfg.holidays (skipWeekend slotDate) <;> simp
          refine Or.inr ⟨⟨hvt, ht, h6, h2f, skipWeekend_weekday_lt slotDate,
            skipWeekend_ge slotDate, rfl, rfl⟩, List.mem_cons_self _ _⟩
      · refine Or.inr ⟨hg.mono ?_, List.mem_cons_of_mem _ hmem⟩
        have := skipWeekend_ge slotDate
        omega
    · rcases ih _ _ _ _ hs with hin | ⟨hg, hmem⟩
      · exact Or.inl hin
      · refine Or.inr ⟨hg.mono ?_, List.mem_cons_of_mem _ hmem⟩
        have := skipWeekend_ge slotDate
        omega

theorem genLoop_ops_check (cfg : SchedulingConfig) (store : List Booking)
    (validTimes : List String) :
    ∀ (fuel slotDate timeIndex : Nat) (acc : List InterviewSlot),
      ∀ op ∈ (genLoop cfg store validTimes fuel slotDate timeIndex acc).2,
        ∃ d t, op = StoreOp.checkAvail d t := by
  intro fuel
  induction fuel with
  | zero =>
    intro slotDate timeIndex acc op hop
    exact absurd hop (List.not_mem_nil op)
  | succ fuel ih =>
    intro slotDate timeIndex acc op hop
    simp only [genLoop] at hop
    split_ifs at hop with h1 h2 h3 h4 h5
    · exact absurd hop (List.not_mem_nil op)
    · exact ih _ _ _ op hop
    · exact ih _ _ _ op hop
    · rcases List.mem_cons.mp hop with heq | hmem
      · exact ⟨_, _, heq⟩
      · exact ih _ _ _ op hmem
    · rcases List.mem_cons.mp hop with heq | hmem
      · exact ⟨_, _, heq⟩
      · exact ih _ _ _ op hmem
    · rcases List.mem_cons.mp hop with heq | hmem
      · exact ⟨_, _, heq⟩
      · exact ih _ _ _ op hmem
    · rcases List.mem_cons.mp hop with heq | hmem
      · exact ⟨_, _, heq⟩
      · exact ih _ _ _ op hmem

theorem generate_mem (cfg : SchedulingConfig) (store : List Booking) (now : Nat)
    (s : InterviewSlot) (hs : s ∈ (generateInterviewSlotsT cfg store now).1) :
    GoodSlot cfg store (cfg.preferredTimes.filter isWithinBusinessHours)
        (now + 2) s ∧
    StoreOp.checkAvail s.date s.time ∈ (generateInterviewSlotsT cfg store now).2 := by
  simp only [generateInterviewSlotsT] at hs ⊢
  split_ifs at hs ⊢ with hvt
  · exact absurd hs (List.not_mem_nil s)
  · rcases genLoop_mem cfg store _ _ _ _ _ s hs with hin | ⟨hg, hmem⟩
    · exact absurd hin (List.not_mem_nil s)
    · exact ⟨hg, hmem⟩

theorem isSlotAvailable_append_last (store : List Booking) (b : Booking) :
    isSlotAvailable (store ++ [b]) b.date b.time = false := by
  induction store with
  | nil => simp [isSlotAvailable]
  | cons x rest ih =>
    by_cases h : x.date = b.date ∧ x.time = b.time
    · simp only [List.cons_append, isSlotAvailable, if_pos h]
    · simp only [List.cons_append, isSlotAvailable, if_neg h]
      exact ih

theorem iwbh_eq_true_iff (s : String) :
    isWithinBusinessHours s = true ↔
      ∃ m : Nat, parseTime12 s = some m ∧
        ((600 ≤ m ∧ m ≤ 720) ∨ (840 ≤ m ∧ m ≤ 1020)) := by
  cases h : parseTime12 s with
  | none =>
    simp only [isWithinBusinessHours, h]
    simp
  | some m =>
    simp only [isWithinBusinessHours, h]
    constructor
    · intro hdec
      exact ⟨m, rfl, by simpa using of_decide_eq_true hdec⟩
    · rintro ⟨m2, hm2, hrange⟩
      cases hm2
      exact decide_eq_true (by simpa using hrange)

/-- C4: every InterviewSlot returned by slot generation has a date that is
neither a Saturday nor a Sunday, is not a member of the configured holiday
set, lies at least 2 calendar days after the current date, and has a time
whose minutes-since-midnight value lies in the closed interval
[10:00, 12:00] or the closed interval [14:00, 17:00]. -/
theorem C4_generated_slot_validity (cfg : SchedulingConfig)
    (store : List Booking) (now : Nat) (s : InterviewSlot)
    (hs : s ∈ generateInterviewSlots cfg store now) :
    weekday s.date ≠ 5 ∧ weekday s.date ≠ 6 ∧ s.date ∉ cfg.holidays ∧
    now + 2 ≤ s.date ∧
    ∃ m : Nat, parseTime12 s.time = some m ∧
      ((600 ≤ m ∧ m ≤ 720) ∨ (840 ≤ m ∧ m ≤ 1020)) := by
  obtain ⟨⟨hvt, ht, havail, hhol, hwk, hlo, hdur, htz⟩, hchk⟩ :=
    generate_mem cfg store now s hs
  refine ⟨?_, ?_, ?_, hlo, (iwbh_eq_true_iff s.time).mp ht⟩
  · unfold weekday
    omega
  · unfold weekday
    omega
  · intro hmem
    have hdec : isHoliday cfg.holidays s.date = true := decide_eq_true hmem
    rw [hhol] at hdec
    cases hdec

/-- Concrete allocator inputs used to witness C4: day 2 is a holiday, so
the slots land on day 3, a Thursday. -/
def c4Cfg : SchedulingConfig := ⟨["10:00 AM", "2:00 PM"], "IST", [2], 2, 60⟩

/-- Witness for C4 at a concrete configuration and slot. -/
theorem C4_generated_slot_validity_witness :
    weekday 3 ≠ 5 ∧ weekday 3 ≠ 6 ∧ (3 : Nat) ∉ c4Cfg.holidays ∧
    0 + 2 ≤ 3 ∧
    ∃ m : Nat, parseTime12 "10:00 AM" = some m ∧
      ((600 ≤ m ∧ m ≤ 720) ∨ (840 ≤ m ∧ m ≤ 1020)) :=
  C4_generated_slot_validity c4Cfg [] 0 ⟨3, "10:00 AM", 60, "IST"⟩ (by decide)

/-- C10: the business-hours check is total over arbitrary strings, giving
false rather than raising on every string the 12-hour clock format rejects,
and in consequence every slot produced by slot generation carries a
parseable time (malformed configured times are filtered out, not crashed
on). -/
theorem C10_business_hours_total :
    (∀ s : String, parseTime12 s = none → isWithinBusinessHours s = false) ∧
    (∀ (cfg : SchedulingConfig) (store : List Booking) (now : Nat),
      ∀ slot ∈ generateInterviewSlots cfg store now,
        ∃ m : Nat, parseTime12 slot.time = some m) := by
  constructor
  · intro s h
    simp only [isWithinBusinessHours, h]
  · intro cfg store now slot hslot
    obtain ⟨⟨_, ht, _, _, _, _, _, _⟩, _⟩ := generate_mem cfg store now slot hslot
    obtain ⟨m, hm, _⟩ := (iwbh_eq_true_iff slot.time).mp ht
    exact ⟨m, hm⟩

/-- Witness for C10 at a malformed time string. -/
theorem C10_business_hours_total_witness :
    isWithinBusinessHours "not a time" = false :=
  C10_business_hours_total.1 "not a time" (by decide)

/-- C6: once a booking with a given (date, time) pair is saved to the
store, is_slot_available reports false for that pair, and every subsequent
slot-generation run returns no slot with that pair; only date and time
participate in the comparison. -/
theorem C6_booking_conflict (store : List Booking) (name : String) (d : Nat)
    (t tz ts : String) (cfg : SchedulingConfig) (now : Nat) :
    isSlotAvailable (saveBooking store name d t tz ts) d t = false ∧
    ∀ s ∈ generateInterviewSlots cfg (saveBooking store name d t tz ts) now,
      ¬ (s.date = d ∧ s.time = t) := by
  have hfalse : isSlotAvailable (saveBooking store name d t tz ts) d t = false :=
    isSlotAvailable_append_last store ⟨name, d, t, tz, ts⟩
  refine ⟨hfalse, ?_⟩
  intro s hs hpair
  obtain ⟨⟨_, _, havail, _, _, _, _, _⟩, _⟩ := generate_mem cfg _ now s hs
  rw [hpair.1, hpair.2] at havail
  rw [hfalse] at havail
  cases havail

/-- Concrete allocator inputs used to witness C6. -/
def c6Cfg : SchedulingConfig := ⟨["10:00 AM"], "IST", [], 1, 60⟩

/-- Witness for C6: after booking day 2 at 10:00 AM the pair is
unavailable, and the slot generated afterwards (day 3 at 10:00 AM) is not
that pair. -/
theorem C6_booking_conflict_witness :
    isSlotAvailable (saveBooking [] "Alice" 2 "10:00 AM" "IST" "t0") 2 "10:00 AM"
        = false ∧
    ¬ ((⟨3, "10:00 AM", 60, "IST"⟩ : InterviewSlot).date = 2 ∧
       (⟨3, "10:00 AM", 60, "IST"⟩ : InterviewSlot).time = "10:00 AM") :=
  ⟨(C6_booking_conflict [] "Alice" 2 "10:00 AM" "IST" "t0" c6Cfg 0).1,
   (C6_booking_conflict [] "Alice" 2 "10:00 AM" "IST" "t0" c6Cfg 0).2
     ⟨3, "10:00 AM", 60, "IST"⟩ (by decide)⟩

/-- The preferred_times list of INTERVIEW_AVAILABILITY in src/src/config.py. -/
def configPreferredTimes : List String :=
  ["10:00 AM", "11:00 AM", "12:00 PM", "2:00 PM", "3:00 PM", "4:00 PM", "5:00 PM"]

/-- Concrete allocator inputs for the C3 counterexample: the configured
preferred times, no holidays, NUM_INTERVIEW_SLOTS 3, an empty store, run on
a Monday. -/
def c3Cfg : SchedulingConfig := ⟨configPreferredTimes, "IST", [], 3, 60⟩

/-- C3 counterexample: on the accept path the operation immediately
preceding the save of the first slot is not an availability re-check of
that slot. Concretely the trace is a check of day 2 at 10:00 AM, a check
of day 2 at 11:00 AM, a check of day 2 at 12:00 PM, then the save of day 2
at 10:00 AM, so the save at index 3 is preceded by the check of a
different pair. -/
theorem C3_counterexample :
    ¬ (∀ (i d : Nat) (t : String),
        (processQualifiedStoreOps c3Cfg [] 0).get? i
            = some (StoreOp.saveSlot d t) →
        ∃ j, i = j + 1 ∧
          (processQualifiedStoreOps c3Cfg [] 0).get? j
            = some (StoreOp.checkAvail d t)) := by
  intro hclaim
  obtain ⟨j, hj1, hj2⟩ := hclaim 3 2 "10:00 AM" (by decide)
  have hj : j = 2 := by omega
  subst hj
  revert hj2
  decide

/-- C3 (amended): on the accept path the availability of every offered
slot, the committed first slot included, is checked once during slot
generation, and the commit is appended after the generation-time checks
with no further availability re-check in between. -/
theorem C3_amended_commit_sequence (cfg : SchedulingConfig)
    (store : List Booking) (now : Nat) (s : InterviewSlot)
    (rest : List InterviewSlot)
    (h : (generateInterviewSlotsT cfg store now).1 = s :: rest) :
    processQualifiedStoreOps cfg store now =
      (generateInterviewSlotsT cfg store now).2
        ++ [StoreOp.saveSlot s.date s.time] ∧
    (∀ op ∈ (generateInterviewSlotsT cfg store now).2,
      ∃ d t, op = StoreOp.checkAvail d t) ∧
    StoreOp.checkAvail s.date s.time ∈ (generateInterviewSlotsT cfg store now).2 := by
  refine ⟨?_, ?_, ?_⟩
  · simp only [processQualifiedStoreOps, h]
  · intro op hop
    simp only [generateInterviewSlotsT] at hop
    split_ifs at hop with hvt
    · exact absurd hop (List.not_mem_nil op)
    · exact genLoop_ops_check cfg store _ _ _ _ _ op hop
  · have hmem : s ∈ (generateInterviewSlotsT cfg store now).1 := by
      rw [h]
      exact List.mem_cons_self _ _
    exact (generate_mem cfg store now s hmem).2

/-- Concrete allocator inputs used to witness the amended C3. -/
def c3w : SchedulingConfig := ⟨["10:00 AM", "11:00 AM"], "IST", [], 2, 60⟩

/-- Witness for the amended C3 at a concrete configuration. -/
theorem C3_amended_commit_sequence_witness :
    processQualifiedStoreOps c3w [] 0 =
      (generateInterviewSlotsT c3w [] 0).2 ++ [StoreOp.saveSlot 2 "10:00 AM"] ∧
    (∀ op ∈ (generateInterviewSlotsT c3w [] 0).2,
      ∃ d t, op = StoreOp.checkAvail d t) ∧
    StoreOp.checkAvail 2 "10:00 AM" ∈ (generateInterviewSlotsT c3w [] 0).2 :=
  C3_amended_commit_sequence c3w [] 0 ⟨2, "10:00 AM", 60, "IST"⟩
    [⟨2, "11:00 AM", 60, "IST"⟩] (by decide)

/-- One observable event of the retry wrapper: an invocation of the
wrapped operation with its outcome, or a time.sleep of some duration. -/
inductive RetryEvent (ε α : Type) where
  | call (attempt : Nat) (outcome : Except ε α)
  | sleep (seconds : Nat)

/-- The loop body of retry_on_failure (src/src/utils.py, lines 76-104),
with the wrapped operation modelled as the outcome of each attempt. The
loop runs attempt over range(max_retries), tracked here by the remaining
iteration count: a successful call returns its result at once; a failing
call sleeps for delay and continues while attempts remain, and re-raises
the caught exception on the last attempt. Returns the ordered event list
and the final result; the result none is the Python fall-through return
None, reachable only with max_retries = 0. -/
def retryGo (f : Nat → Except ε α) (delay maxRetries : Nat) :
    Nat → Nat → List (RetryEvent ε α) × Option (Except ε α)
  | _, 0 => ([], none)
  | attempt, remaining + 1 =>
    match f attempt with
    | Except.ok v => ([RetryEvent.call attempt (Except.ok v)], some (Except.ok v))
    | Except.error e =>
      if attempt < maxRetries - 1 then
        let rest := retryGo f delay maxRetries (attempt + 1) remaining
        (RetryEvent.call attempt (Except.error e)
            :: RetryEvent.sleep delay :: rest.1, rest.2)
      else
        ([RetryEvent.call attempt (Except.error e)], some (Except.error e))

/-- retry_on_failure (src/src/utils.py, lines 76-104): run the retry loop
from attempt 0 with the full budget. -/
def retryOnFailure (f : Nat → Except ε α) (delay maxRetries : Nat) :
    List (RetryEvent ε α) × Option (Except ε α) :=
  retryGo f delay maxRetries 0 maxRetries

/-- Number of invocations of the wrapped operation recorded in an event
list. -/
def callCount (evs : List (RetryEvent ε α)) : Nat :=
  evs.countP fun e => match e with
    | RetryEvent.call _ _ => true
    | RetryEvent.sleep _ => false

theorem retryGo_callCount {ε α : Type} (f : Nat → Except ε α)
    (delay maxRetries : Nat) :
    ∀ remaining attempt,
      callCount (retryGo f delay maxRetries attempt remaining).1 ≤ remaining := by
  intro remaining
  induction remaining with
  | zero =>
    intro attempt
    simp [retryGo, callCount]
  | succ n ih =>
    intro attempt
    simp only [retryGo]
    cases hf : f attempt with
    | ok v => simp [callCount, List.countP_cons]
    | error e =>
      split_ifs with h
      · have hrec := ih (attempt + 1)
        simp only [callCount, List.countP_cons] at hrec ⊢
        simp
        omega
      · simp [callCount, List.countP_cons]

theorem retryGo_success {ε α : Type} (f : Nat → Except ε α)
    (delay maxRetries : Nat) :
    ∀ remaining attempt (k : Nat) (v : α),
      attempt + remaining = maxRetries →
      attempt ≤ k → k < maxRetries →
      (∀ j, attempt ≤ j → j < k → ∃ e, f j = Except.error e) →
      f k = Except.ok v →
      (retryGo f delay maxRetries attempt remaining).2 = some (Except.ok v) := by
  intro remaining
  induction remaining with
  | zero =>
    intro attempt k v htot hak hk _ _
    omega
  | succ n ih =>
    intro attempt k v htot hak hk hfail hok
    simp only [retryGo]
    by_cases hek : attempt = k
    · subst hek
      simp [hok]
    · obtain ⟨e, he⟩ := hfail attempt (le_refl _) (by omega)
      simp only [he]
      rw [if_pos (by omega)]
      exact ih (attempt + 1) k v (by omega) (by omega) hk
        (fun j hj1 hj2 => hfail j (by omega) hj2) hok

theorem retryGo_allFail {ε α : Type} (f : Nat → Except ε α)
    (delay maxRetries : Nat) :
    ∀ remaining attempt (es : Nat → ε),
      attempt + remaining = maxRetries → 0 < remaining →
      (∀ k, attempt ≤ k → k < maxRetries → f k = Except.error (es k)) →
      (retryGo f delay maxRetries attempt remaining).2
        = some (Except.error (es (maxRetries - 1))) := by
  intro remaining
  induction remaining with
  | zero =>
    intro attempt es htot h0 _
    omega
  | succ n ih =>
    intro attempt es htot _ hfail
    simp only [retryGo]
    have he := hfail attempt (le_refl _) (by omega)
    simp only [he]
    by_cases hlast : attempt < maxRetries - 1
    · rw [if_pos hlast]
      exact ih (attempt + 1) es (by omega) (by omega)
        (fun k h1 h2 => hfail k (by omega) h2)
    · rw [if_neg hlast]
      have hend : attempt = maxRetries - 1 := by omega
      rw [hend]

theorem retryGo_sleeps {ε α : Type} (f : Nat → Except ε α)
    (delay maxRetries : Nat) :
    ∀ remaining attempt,
      ∀ ev ∈ (retryGo f delay maxRetries attempt remaining).1,
        ∀ sec, ev = RetryEvent.sleep sec → sec = delay := by
  intro remaining
  induction remaining with
  | zero =>
    intro attempt ev hev
    cases hev
  | succ n ih =>
    intro attempt ev hev sec hsec
    cases hf : f attempt with
    | ok v =>
      simp only [retryGo, hf] at hev
      rcases List.mem_singleton.mp hev with rfl
      cases hsec
    | error e =>
      simp only [retryGo, hf] at hev
      split_ifs at hev with h
      · rcases List.mem_cons.mp hev with rfl | hev2
        · cases hsec
        · rcases List.mem_cons.mp hev2 with rfl | hev3
          · injection hsec with h1
            omega
          · exact ih (attempt + 1) ev hev3 sec hsec
      · rcases List.mem_singleton.mp hev with rfl
        cases hsec

/-- C8: the retry wrapper invokes the wrapped operation at most maxRetries
times in total, sleeps the configured delay between attempts, returns the
result of the first successful attempt, and when every attempt fails it
propagates the failure of the last attempt unchanged. -/
theorem C8_retry_wrapper {ε α : Type} (f : Nat → Except ε α)
    (delay maxRetries : Nat) :
    callCount (retryOnFailure f delay maxRetries).1 ≤ maxRetries ∧
    (∀ (k : Nat) (v : α), k < maxRetries →
      (∀ j, j < k → ∃ e, f j = Except.error e) → f k = Except.ok v →
      (retryOnFailure f delay maxRetries).2 = some (Except.ok v)) ∧
    (∀ es : Nat → ε, 0 < maxRetries →
      (∀ k, k < maxRetries → f k = Except.error (es k)) →
      (retryOnFailure f delay maxRetries).2
        = some (Except.error (es (maxRetries - 1)))) ∧
    (∀ ev ∈ (retryOnFailure f delay maxRetries).1,
      ∀ sec, ev = RetryEvent.sleep sec → sec = delay) := by
  refine ⟨retryGo_callCount f delay maxRetries maxRetries 0, ?_, ?_, ?_⟩
  · intro k v hk hfail hok
    exact retryGo_success f delay maxRetries maxRetries 0 k v (by omega)
      (by omega) hk (fun j _ hj => hfail j hj) hok
  · intro es h0 hfail
    exact retryGo_allFail f delay maxRetries maxRetries 0 es (by omega) h0
      (fun k _ hk => hfail k hk)
  · exact retryGo_sleeps f delay maxRetries maxRetries 0

/-- Attempt outcomes used to witness C8: the first attempt fails, the
second succeeds. -/
def c8f : Nat → Except String Nat :=
  fun k => if k = 0 then Except.error "boom" else Except.ok 42

/-- Witness for C8: with the default budget of 3, a failure followed by a
success yields the successful result. -/
theorem C8_retry_wrapper_witness :
    (retryOnFailure c8f 2 3).2 = some (Except.ok 42) :=
  (C8_retry_wrapper c8f 2 3).2.1 1 42 (by omega)
    (fun j hj => ⟨"boom", by
      have hj0 : j = 0 := by omega
      subst hj0
      rfl⟩)
    rfl

/-- The fields of the parsed resume (pydantic model ResumeAnalysis of
src/src/models.py) that the modelled control flow reads; the remaining
fields (contact details, experience and education lists, years of
experience) do not influence the workflow transitions. -/
structure ResumeAnalysisR where
  candidateName : Option String
  skills : List String
  summary : String
deriving DecidableEq, Repr

/-- The decision Literal of AgentState in src/src/models.py. -/
inductive Decision where
  | accept
  | reject
  | review
deriving DecidableEq, Repr

/-- The EmailTemplate pydantic model of src/src/models.py. -/
structure EmailTemplateR where
  subject : String
  body : String
  tone : String
deriving DecidableEq, Repr

/-- The AgentState pydantic model of src/src/models.py 
(the LangGraph state): input text, the optional stage outputs, the
current_step tag, the decision and the optional error string. The
interview coordination output is tracked by a presence flag; resume_text
and job_requirements are inputs the transitions never branch on. -/
structure AgentStateR where
  resumeText : String
  resumeAnalysis : Option ResumeAnalysisR
  screeningScore : Option ScreeningScore
  interviewCoordinationDone : Bool
  currentStep : String
  decision : Option Decision
  error : Option String
deriving DecidableEq, Repr

/-- ResumeAnalyzerAgent.process (src/src/agents/resume_analyzer.py, lines
230-270): on success of the retried extraction and scoring capabilities it
merges the analysis, the score and current_step = analyzed into the state;
any exception is caught and merged as an error message with
current_step = error. Note the step tag is the string error, not failed. -/
def resumeAnalyzerProcess
    (analyzerOutcome : Except String (ResumeAnalysisR × ScreeningScore))
    (st : AgentStateR) : AgentStateR :=
  match analyzerOutcome with
  | Except.ok (ra, ss) =>
    { st with
      resumeAnalysis := some ra
      screeningScore := some ss
      currentStep := "analyzed" }
  | Except.error msg =>
    { st with
      error := some ("Resume analysis failed: " ++ msg)
      currentStep := "error" }

/-- InterviewCoordinatorAgent.process_rejected
(src/src/agents/interview_coordinator.py, lines 432-485): with a missing
resume analysis or screening score the attribute access inside the email
generation raises and is caught (the Python exception text is abstracted
as the attrErr parameter); otherwise the outcome of the retried
rejection-email capability decides between the coordinated update and the
error update. -/
def processRejected (genOutcome : Except String EmailTemplateR)
    (attrErr : String) (st : AgentStateR) : AgentStateR :=
  match st.resumeAnalysis, st.screeningScore with
  | some _, some _ =>
    match genOutcome with
    | Except.ok _ =>
      { st with
        interviewCoordinationDone := true
        decision := some Decision.reject
        currentStep := "coordinated" }
    | Except.error msg =>
      { st with
        error := some ("Rejection processing failed: " ++ msg)
        currentStep := "error" }
  | _, _ =>
    { st with
      error := some ("Rejection processing failed: " ++ attrErr)
      currentStep := "error" }

/-- InterviewCoordinatorAgent.process_qualified
(src/src/agents/interview_coordinator.py, lines 354-430) at the
granularity the workflow claims need: with a missing analysis or score the
attribute access raises and is caught; otherwise slots are generated from
the booking store, the first one (when present) is saved under the
candidate name, and the outcome of the retried invitation-email capability
decides the final update; with no slots the email step raises ValueError
with the message embedded below, caught by the same handler. Question
generation failures are caught per question inside its loop and do not
raise. Returns the updated state and the booking store after the node. -/
def processQualified (genOutcome : Except String EmailTemplateR)
    (attrErr : String) (cfg : SchedulingConfig) (store : List Booking)
    (now : Nat) (bookedAt : String) (st : AgentStateR) :
    AgentStateR × List Booking :=
  match st.resumeAnalysis, st.screeningScore with
  | some ra, some _ =>
    match generateInterviewSlots cfg store now with
    | [] =>
      ({ st with
          error := some "Interview coordination failed: No interview slots available"
          currentStep := "error" }, store)
    | s :: _ =>
      let store2 := saveBooking store (ra.candidateName.getD "Unknown Candidate")
        s.date s.time s.timezone bookedAt
      match genOutcome with
      | Except.ok _ =>
        ({ st with
            interviewCoordinationDone := true
            decision := some Decision.accept
            currentStep := "coordinated" }, store2)
      | Except.error msg =>
        ({ st with
            error := some ("Interview coordination failed: " ++ msg)
            currentStep := "error" }, store2)
  | _, _ =>
    ({ st with
        error := some ("Interview coordination failed: " ++ attrErr)
        currentStep := "error" }, store)

/-- The finalize node (src/src/workflow.py, lines 89-92): logs a summary
and overwrites current_step with completed. -/
def finalizeNode (st : AgentStateR) : AgentStateR :=
  { st with currentStep := "completed" }

/-- The steps of the compiled graph, recorded in execution order. -/
inductive NodeTag where
  | analyze
  | route
  | accept
  | reject
  | final
deriving DecidableEq, Repr

/-- The compiled graph of HRScreeningWorkflow._build_workflow
(src/src/workflow.py, lines 40-75): entry point analyze_resume, then the
conditional routing after analysis choosing coordinate_accept or
coordinate_reject, then finalize, then END. The graph has no edge that
bypasses the routing step when the analyzer node reports an error. Returns
the final state, the booking store after the run, and the ordered trace of
executed steps. -/
def runWorkflow
    (analyzerOutcome : Except String (ResumeAnalysisR × ScreeningScore))
    (acceptOutcome rejectOutcome : Except String EmailTemplateR)
    (attrErr : String) (cfg : SchedulingConfig) (store : List Booking)
    (now : Nat) (bookedAt : String) (st0 : AgentStateR) :
    AgentStateR × List Booking × List NodeTag :=
  let st1 := resumeAnalyzerProcess analyzerOutcome st0
  match routeAfterScreening st1.screeningScore with
  | RoutePath.coordinateAccept =>
    let res := processQualified acceptOutcome attrErr cfg store now bookedAt st1
    (finalizeNode res.1, res.2,
      [NodeTag.analyze, NodeTag.route, NodeTag.accept, NodeTag.final])
  | RoutePath.coordinateReject =>
    (finalizeNode (processRejected rejectOutcome attrErr st1), store,
      [NodeTag.analyze, NodeTag.route, NodeTag.reject, NodeTag.final])

/-- The initial pipeline state of the C2 failing run. -/
def c2Init : AgentStateR :=
  ⟨"resume text", none, none, false, "start", none, none⟩

/-- Allocator inputs of the C2 failing run (never reached on its path). -/
def c2Cfg : SchedulingConfig := ⟨["10:00 AM"], "IST", [], 3, 60⟩

/-- The C2 failing run: the analyzer capability fails after its retries. -/
def c2Run : AgentStateR × List Booking × List NodeTag :=
  runWorkflow (Except.error "LLM unavailable")
    (Except.ok ⟨"subject", "body", "Professional"⟩)
    (Except.ok ⟨"subject", "body", "Professional"⟩)
    "NoneType object has no attribute candidate_info"
    c2Cfg [] 0 "t0" c2Init

/-- C2 at the failing input: with the analysis stage failing after its
retries, the run does not reach the terminal step failed; the analyzer
node records the error with current_step = error, the routing step is
still executed and sends the run to the reject branch, and finalize
overwrites current_step with completed; the reject-stage error message
also overwrites the recorded analysis error. -/
theorem C2_failing_run :
    c2Run.1.currentStep = "completed" ∧
    c2Run.1.currentStep ≠ "failed" ∧
    NodeTag.route ∈ c2Run.2.2 ∧
    NodeTag.reject ∈ c2Run.2.2 ∧
    c2Run.1.error = some ("Rejection processing failed: "
      ++ "NoneType object has no attribute candidate_info") := by
  refine ⟨rfl, by decide, by decide, by decide, rfl⟩

end HRScreening
